import Mathlib

/-!
Verification of the task-inbox aggregation and action-suggestion engine of
the productive-mcp repository (src/tools/pages.ts `taskInboxTool` and
src/cli/inbox.ts `main`, plus the shared pure text helpers).

JavaScript strings are modelled as `List Char`; JS millisecond timestamps
(`Date.getTime()`) as `Int`; `Math.floor` of a division by a positive
constant as `Int.fdiv`.  Locale-dependent date rendering
(`Date.toLocaleDateString`) is kept abstract as a parameter `loc`.
-/

namespace Productive

/-- JS strings are sequences of characters. -/
abbrev Str := List Char

/-- Embed a Lean string literal as a character list. -/
def str (s : String) : Str := s.toList

/-- `needle` is a leading segment of `l` (JS `String.prototype.startsWith`). -/
def startsWith : Str → Str → Bool
  | [], _ => true
  | _ :: _, [] => false
  | p :: ps, c :: cs => p == c && startsWith ps cs

/-- `hay.includes(needle)` of JS: `needle` occurs contiguously in `hay`. -/
def containsStr : Str → Str → Bool
  | [], needle => needle.isEmpty
  | c :: rest, needle => startsWith needle (c :: rest) || containsStr rest needle

/-- JS `String.prototype.toLowerCase` (ASCII-adequate for the keyword sets used). -/
def lower (l : Str) : Str := l.map Char.toLower

/-- JS `s.trim()`: drop leading and trailing whitespace. -/
def jsTrim (l : Str) : Str :=
  ((l.dropWhile Char.isWhitespace).reverse.dropWhile Char.isWhitespace).reverse

/-- JS `x || d` on strings: `d` when the string is empty (falsy), else the string. -/
def jsOr (s d : Str) : Str := if s.isEmpty then d else s

/-- JS `maybe || d` where `maybe` is a possibly-undefined string. -/
def jsOrElse (o : Option Str) (d : Str) : Str :=
  match o with
  | some s => jsOr s d
  | none => d

/-- Scanning loop of the JS global literal replacement.  The `fuel`
argument makes the recursion structural so terms evaluate inside the
kernel; every scanning step consumes at least one character and exactly one
unit of fuel, so `fuel = length` (as supplied by `replaceAll`) keeps the
invariant `length ≤ fuel` and the bare `0`-fuel arm is never reached for a
non-empty pattern. -/
def replaceAllGo (pat rep : Str) : Nat → Str → Str
  | _, [] => []
  | 0, l => l
  | fuel + 1, c :: rest =>
    if pat ≠ [] ∧ startsWith pat (c :: rest) = true then
      rep ++ replaceAllGo pat rep fuel ((c :: rest).drop pat.length)
    else
      c :: replaceAllGo pat rep fuel rest

/-- JS global literal replacement `s.replace(/pat/g, rep)` for a plain literal
pattern: leftmost, non-overlapping, the replacement text is not rescanned. -/
def replaceAll (pat rep l : Str) : Str := replaceAllGo pat rep l.length l

/-- Scanning loop of tag removal; `fuel` as in `replaceAllGo`. -/
def removeTagsGo : Nat → Str → Str
  | _, [] => []
  | 0, l => l
  | fuel + 1, c :: rest =>
    if c = '<' ∧ rest.any (fun d => d == '>') then
      removeTagsGo fuel ((rest.dropWhile (fun d => !(d == '>'))).drop 1)
    else
      c :: removeTagsGo fuel rest

/-- JS `s.replace(/<[^>]*>/g, '')`: each `<` with a later `>` opens a tag that
runs to the first following `>`; a `<` with no later `>` is kept verbatim. -/
def removeTags (l : Str) : Str := removeTagsGo l.length l

/-- `stripHtml` of src/cli/inbox.ts lines 52-61 and the identical function of
src/tools/pages.ts lines 142-151: remove tags, then decode the five entity
escapes one global replacement after another, then trim. -/
def stripHtml (html : Str) : Str :=
  jsTrim
    (replaceAll (str "&quot;") (str "\"")
      (replaceAll (str "&gt;") (str ">")
        (replaceAll (str "&lt;") (str "<")
          (replaceAll (str "&amp;") (str "&")
            (replaceAll (str "&nbsp;") (str " ")
              (removeTags html))))))

/-- `truncate` of src/cli/inbox.ts lines 74-77.  The claimed contract only
covers `maxLength > 3`, where JS `slice(0, maxLength - 3)` is `take`. -/
def truncate (text : Str) (maxLength : Nat) : Str :=
  if text.length ≤ maxLength then text
  else text.take (maxLength - 3) ++ str "..."

/-- Decimal rendering of a natural number (JS template interpolation). -/
def natStr (n : Nat) : Str := (toString n).toList

/-- Decimal rendering of an integer (JS template interpolation). -/
def intStr (i : Int) : Str := (toString i).toList

/-- The body of `formatRelativeTime` after `diffDays` has been computed
(src/cli/inbox.ts lines 40-46, src/tools/pages.ts lines 130-136). -/
def relLabelCore (loc : Int → Str) (dateMs diffDays : Int) : Str :=
  if diffDays = 0 then str "today"
  else if diffDays = 1 then str "1 day ago"
  else if diffDays < 7 then intStr diffDays ++ str " days ago"
  else if diffDays < 14 then str "1 week ago"
  else if diffDays < 30 then intStr (diffDays.fdiv 7) ++ str " weeks ago"
  else if diffDays < 60 then str "1 month ago"
  else loc dateMs

/-- `formatRelativeTime` of src/cli/inbox.ts lines 34-47 and src/tools/pages.ts
lines 124-137: `diffDays = Math.floor((now - date) / 86400000)`, then the
first-match ladder of `relLabelCore`. -/
def formatRelativeTime (loc : Int → Str) (nowMs dateMs : Int) : Str :=
  relLabelCore loc dateMs ((nowMs - dateMs).fdiv 86400000)

/-- Consume a literal pattern at the head of `l`, returning the remainder. -/
def dropLit (pat l : Str) : Option Str :=
  if startsWith pat l then some (l.drop pat.length) else none

/-- Match the tail of the mention regex of src/cli/inbox.ts line 68 after the
literal `@[\x7b` and the backtrackable `[^\x7d]*` segment: the literal
`"label"`, then `\s*`, `:`, `\s*`, `"`, the captured label `[^"]+`, `"`, a
second `[^\x7d]*` segment, and the closing `\x7d]`.  The segments `\s*`,
`[^"]+` and the second `[^\x7d]*` never need backtracking because the token
that follows each of them cannot occur inside the segment.  Returns the
captured label and the unconsumed remainder. -/
def matchAfterA (r : Str) : Option (Str × Str) :=
  match dropLit (str "\"label\"") r with
  | none => none
  | some r1 =>
    match dropLit (str ":") (r1.dropWhile Char.isWhitespace) with
    | none => none
    | some r3 =>
      match dropLit (str "\"") (r3.dropWhile Char.isWhitespace) with
      | none => none
      | some r5 =>
        if (r5.takeWhile (fun c => !(c == '"'))).isEmpty then none
        else
          match dropLit (str "\"") (r5.drop (r5.takeWhile (fun c => !(c == '"'))).length) with
          | none => none
          | some r6 =>
            match dropLit (str "\x7d]") (r6.drop (r6.takeWhile (fun c => !(c == '\x7d'))).length) with
            | none => none
            | some r7 => some (r5.takeWhile (fun c => !(c == '"')), r7)

/-- Greedy backtracking of the first `[^\x7d]*` segment: `arev` is the
(reversed) part of the non-`\x7d` region still assigned to the segment, `r`
the input that follows it.  The longest assignment is tried first; on
failure the segment shrinks one character at a time. -/
def tryShrink : Str → Str → Option (Str × Str)
  | [], r =>
    match matchAfterA r with
    | some res => some res
    | none => none
  | c :: arev2, r =>
    match matchAfterA r with
    | some res => some res
    | none => tryShrink arev2 (c :: r)

/-- Try to match the whole mention regex at the head of `l`: the literal
`@[\x7b`, then the greedy `[^\x7d]*` segment handled by `tryShrink`.
Returns the captured label and the remainder after the match. -/
def tryMention (l : Str) : Option (Str × Str) :=
  match dropLit (str "@[\x7b") l with
  | none => none
  | some r0 =>
    let m := r0.takeWhile (fun c => !(c == '\x7d'))
    tryShrink m.reverse (r0.drop m.length)

/-- Termination bound: `dropLit` never lengthens its input. -/
theorem dropLit_length {pat l r : Str} (h : dropLit pat l = some r) :
    r.length ≤ l.length := by
  unfold dropLit at h
  split at h
  · cases h
    simp [List.length_drop]
  · cases h

/-- Termination bound: the tail matcher never lengthens its input. -/
theorem matchAfterA_length {r lab rest : Str}
    (h : matchAfterA r = some (lab, rest)) : rest.length ≤ r.length := by
  unfold matchAfterA at h
  split at h
  · cases h
  next r1 h1 =>
    split at h
    · cases h
    next r3 h3 =>
      split at h
      · cases h
      next r5 h5 =>
        split at h
        · cases h
        · split at h
          · cases h
          next r6 h6 =>
            split at h
            · cases h
            next r7 h7 =>
              cases h
              have e1 := dropLit_length h1
              have e3 := dropLit_length h3
              have e5 := dropLit_length h5
              have e6 := dropLit_length h6
              have e7 := dropLit_length h7
              have w1 : (r1.dropWhile Char.isWhitespace).length ≤ r1.length :=
                (List.dropWhile_sublist _).length_le
              have w3 : (r3.dropWhile Char.isWhitespace).length ≤ r3.length :=
                (List.dropWhile_sublist _).length_le
              have d5 : (r5.drop (r5.takeWhile (fun c => !(c == '"'))).length).length ≤ r5.length := by
                simp [List.length_drop]
              have d6 : (r6.drop (r6.takeWhile (fun c => !(c == '\x7d'))).length).length ≤ r6.length := by
                simp [List.length_drop]
              omega

/-- Termination bound for the backtracking loop. -/
theorem tryShrink_length {arev r lab rest : Str}
    (h : tryShrink arev r = some (lab, rest)) :
    rest.length ≤ arev.length + r.length := by
  induction arev generalizing r with
  | nil =>
    simp only [tryShrink] at h
    split at h
    next res hm =>
      cases h
      simpa using matchAfterA_length hm
    · cases h
  | cons c arev2 ih =>
    simp only [tryShrink] at h
    split at h
    next res hm =>
      cases h
      have := matchAfterA_length hm
      simp only [List.length_cons]
      omega
    next hm =>
      have := ih h
      simp only [List.length_cons] at *
      omega

/-- Termination bound: a successful mention match strictly shrinks the input. -/
theorem tryMention_length {l lab rest : Str}
    (h : tryMention l = some (lab, rest)) : rest.length < l.length := by
  unfold tryMention at h
  split at h
  · cases h
  next r0 h0 =>
    have e0 : r0.length ≤ l.length - 3 := by
      unfold dropLit at h0
      split at h0
      · cases h0
        simp [List.length_drop, str]
      · cases h0
    have e1 := tryShrink_length h
    have lm : (r0.takeWhile (fun c => !(c == '\x7d'))).length ≤ r0.length :=
      (List.takeWhile_sublist _).length_le
    have l3 : 3 ≤ l.length := by
      unfold dropLit at h0
      split at h0
      next hs =>
        cases h0
        revert hs
        match l with
        | [] => intro hs; cases hs
        | [_] => intro hs; simp [startsWith, str] at hs
        | [_, _] => intro hs; simp [startsWith, str] at hs
        | _ :: _ :: _ :: _ => intro _; simp only [List.length_cons]; omega
      · cases h0
    simp only [List.length_reverse, List.length_drop] at e1
    omega

/-- Scanning loop of the mention replacement; `fuel` as in `replaceAllGo`.
`tryMention_length` shows a successful match strictly shrinks the input, so
with `fuel = length` (as supplied by `cleanMentions`) the bare `0`-fuel arm
is never reached. -/
def cleanMentionsGo : Nat → Str → Str
  | _, [] => []
  | 0, l => l
  | fuel + 1, c :: rest =>
    match tryMention (c :: rest) with
    | some (lab, after) => str "@" ++ lab ++ cleanMentionsGo fuel after
    | none => c :: cleanMentionsGo fuel rest

/-- `cleanMentions` of src/cli/inbox.ts lines 67-69: the JS global replace of
the mention regex by `@` followed by the captured label.  Scanning is
leftmost; on a match the scan resumes after the match (the replacement text
is not rescanned); on a failed position the scan advances one character. -/
def cleanMentions (l : Str) : Str := cleanMentionsGo l.length l

/-- Whether some position of `l` matches the mention regex. -/
def hasMention : Str → Bool
  | [] => false
  | c :: rest => (tryMention (c :: rest)).isSome || hasMention rest

/-- A comment as consumed by the inbox: rich-markup body and the id of the
creating person (`relationships.creator.data.id`, possibly absent). -/
structure Comment where
  body : Str
  creatorId : Option Str
deriving DecidableEq

/-- A task as consumed by the inbox.  `lastActivityAt` may be absent, in
which case `updatedAt` is the recency fallback; `projectId` is
`relationships.project.data.id`. -/
structure Task where
  id : Str
  title : Str
  description : Option Str
  lastActivityAt : Option Int
  updatedAt : Int
  projectId : Option Str
deriving DecidableEq

/-- An entry of the untyped `included` side channel, discriminated by its
`type` field (`projects` or `people`). -/
inductive Entity where
  | project (id name : Str)
  | person (id firstName lastName email : Str)
deriving DecidableEq

/-- Response of `client.listTasks`. -/
structure TasksResponse where
  data : List Task
  included : List Entity
  totalCount : Option Nat
deriving DecidableEq

/-- Response of `client.listComments`. -/
structure CommentsResponse where
  data : List Comment
  included : List Entity
deriving DecidableEq

/-- JS `Map.prototype.get` over an association list in which the most recent
`set` of a key sits closest to the front. -/
def mapGet {α : Type} : List (Str × α) → Str → Option α
  | [], _ => none
  | (k, v) :: rest, key => if k = key then some v else mapGet rest key

/-- Project lookup built from the task response's included entities
(src/tools/pages.ts lines 191-199, src/cli/inbox.ts lines 105-113); a later
`set` of the same id wins, hence the front insertion. -/
def buildProjectMap (included : List Entity) : List (Str × Str) :=
  included.foldl (fun m e =>
    match e with
    | .project id name => (id, name) :: m
    | .person _ _ _ _ => m) []

/-- Person lookup merged from every comment response's included entities
(src/tools/pages.ts lines 212-223, src/cli/inbox.ts lines 124-135): the
display name is `"first last"` trimmed, falling back to the email when both
name parts are blank. -/
def buildPersonMap (resps : List CommentsResponse) : List (Str × Str) :=
  resps.foldl (fun m resp =>
    resp.included.foldl (fun m2 e =>
      match e with
      | .person id f l em => (id, jsOr (jsTrim (f ++ str " " ++ l)) em) :: m2
      | .project _ _ => m2) m) []

/-- Task-to-latest-comment lookup zipping the task-id order with the
comment-response order (src/tools/pages.ts lines 226-232, src/cli/inbox.ts
lines 138-144): a task appears only when its response has data. -/
def buildTaskCommentMap (taskIds : List Str) (resps : List CommentsResponse) :
    List (Str × Comment) :=
  (List.zip taskIds resps).foldl (fun m p =>
    match p.2.data with
    | [] => m
    | c :: _ => (p.1, c) :: m) []

/-- Author-name resolution `creatorId ? personMap.get(creatorId) || d : d`
(the `d` is `'Unknown'` in the content line and `'Someone'` in the action
engine). -/
def authorNameOr (people : List (Str × Str)) (d : Str) (c : Comment) : Str :=
  match c.creatorId with
  | some cid => jsOrElse (mapGet people cid) d
  | none => d

/-- Stripped description `task.attributes.description ? stripHtml(...) : ''`. -/
def taskDescriptionOf (t : Task) : Str :=
  match t.description with
  | some d => stripHtml d
  | none => []

/-- Content line of the MCP tool renderer, src/tools/pages.ts lines 244-255:
latest comment (author plus stripped body), else stripped description, else
the literal no-content marker; each with a three-space indent. -/
def contentLineTool (people : List (Str × Str)) (latest : Option Comment)
    (taskDescription : Str) : Str :=
  match latest with
  | some c =>
    str "   " ++ authorNameOr people (str "Unknown") c ++ str ": " ++ stripHtml c.body
  | none =>
    if taskDescription.isEmpty then str "   No content"
    else str "   Description: " ++ taskDescription

/-- `MAX_CONTENT_LENGTH` of src/cli/inbox.ts line 29. -/
def MAX_CONTENT_LENGTH : Nat := 200

/-- Content line of the CLI renderer, src/cli/inbox.ts lines 161-175: like
the tool renderer, but the comment body and the description are additionally
mention-collapsed and, unless `--full` was given, truncated to 200. -/
def contentLineCli (people : List (Str × Str)) (showFull : Bool)
    (latest : Option Comment) (taskDescription : Str) : Str :=
  match latest with
  | some c =>
    let body0 := cleanMentions (stripHtml c.body)
    let body := if showFull then body0 else truncate body0 MAX_CONTENT_LENGTH
    str "   " ++ authorNameOr people (str "Unknown") c ++ str ": " ++ body
  | none =>
    if taskDescription.isEmpty then str "   No content"
    else
      let d0 := cleanMentions taskDescription
      let d := if showFull then d0 else truncate d0 MAX_CONTENT_LENGTH
      str "   Description: " ++ d

/-- Action suggestion of src/tools/pages.ts lines 266-298 for one task:
at most one string is produced, by the nested first-match keyword ladder
over the lower-cased stripped latest-comment body, or, when no comment
exists, over the task title. -/
def suggestionFor (people : List (Str × Str)) (taskNum : Nat) (title : Str)
    (latest : Option Comment) : Option Str :=
  match latest with
  | some c =>
    let commentBody := lower (stripHtml c.body)
    let authorName := authorNameOr people (str "Someone") c
    if containsStr commentBody (str "?") || containsStr commentBody (str "@") then
      if containsStr commentBody (str "close") || containsStr commentBody (str "chiudi") then
        some (str "#" ++ natStr taskNum ++ str " - " ++ authorName ++
          str " is asking about closing this task. Review and respond.")
      else if containsStr commentBody (str "review") || containsStr commentBody (str "controlla") then
        some (str "#" ++ natStr taskNum ++ str " - Review requested by " ++ authorName ++ str ".")
      else if containsStr commentBody (str "help") || containsStr commentBody (str "aiut") then
        some (str "#" ++ natStr taskNum ++ str " - " ++ authorName ++ str " is asking for help.")
      else if containsStr commentBody (str "publish") || containsStr commentBody (str "pubblica") then
        some (str "#" ++ natStr taskNum ++ str " - " ++ authorName ++
          str " needs you to publish something.")
      else if containsStr commentBody (str "?") then
        some (str "#" ++ natStr taskNum ++ str " - " ++ authorName ++ str " asked a question. Respond.")
      else
        some (str "#" ++ natStr taskNum ++ str " - You were mentioned. Check and respond.")
    else none
  | none =>
    if containsStr (lower title) (str "critical") || containsStr title (str "⚠️") then
      some (str "#" ++ natStr taskNum ++ str " - CRITICAL bug needs immediate attention.")
    else if containsStr (lower title) (str "bug") then
      some (str "#" ++ natStr taskNum ++ str " - Bug to investigate.")
    else none

/-- The suggested-action lines collected in task order with 1-based numbers
(src/tools/pages.ts lines 264-299): `i` is the 0-based position of the first
task of `ts` in the full list. -/
def actionItemsFrom (people : List (Str × Str)) (cmap : List (Str × Comment)) :
    Nat → List Task → List Str
  | _, [] => []
  | i, t :: ts =>
    match suggestionFor people (i + 1) t.title (mapGet cmap t.id) with
    | some s => s :: actionItemsFrom people cmap (i + 1) ts
    | none => actionItemsFrom people cmap (i + 1) ts

/-- Context shared by every rendered block: the organisation id, the current
time, and the abstract locale date renderer. -/
structure RenderCtx where
  orgId : Str
  now : Int
  loc : Int → Str

/-- One per-task block of src/tools/pages.ts lines 235-257: the header line
(1-based ordinal, task URL, project name, relative age) and the content
line. -/
def renderBlock (ctx : RenderCtx) (projects people : List (Str × Str))
    (cmap : List (Str × Comment)) (index : Nat) (t : Task) : Str :=
  let projectName := match t.projectId with
    | some pid => jsOrElse (mapGet projects pid) (str "Unknown Project")
    | none => str "No Project"
  let lastActivity := t.lastActivityAt.getD t.updatedAt
  let taskUrl := str "https://app.productive.io/" ++ ctx.orgId ++ str "/tasks/" ++ t.id
  natStr (index + 1) ++ str ". " ++ taskUrl ++ str " | " ++ projectName ++ str " | " ++
    formatRelativeTime ctx.loc ctx.now lastActivity ++ str "\n" ++
    contentLineTool people (mapGet cmap t.id) (taskDescriptionOf t)

/-- The blocks of `tasksResponse.data.map((task, index) => ...)`: one block
per task, in list order, with `index` starting at `i`. -/
def taskBlocks (ctx : RenderCtx) (projects people : List (Str × Str))
    (cmap : List (Str × Comment)) : Nat → List Task → List Str
  | _, [] => []
  | i, t :: ts =>
    renderBlock ctx projects people cmap i t ::
      taskBlocks ctx projects people cmap (i + 1) ts

/-- JS `Array.prototype.join(sep)`. -/
def joinSep (sep : Str) : List Str → Str
  | [] => []
  | [x] => x
  | x :: y :: rest => x ++ sep ++ joinSep sep (y :: rest)

/-- The full success-path text of src/tools/pages.ts lines 234-309: header,
blocks joined by blank lines, optional suggested-actions section. -/
def renderInbox (orgId : Str) (now : Int) (loc : Int → Str)
    (tresp : TasksResponse) (cresps : List CommentsResponse) : Str :=
  let projects := buildProjectMap tresp.included
  let people := buildPersonMap cresps
  let taskIds := tresp.data.map (fun t => t.id)
  let cmap := buildTaskCommentMap taskIds cresps
  let ctx : RenderCtx := ⟨orgId, now, loc⟩
  let blocks := taskBlocks ctx projects people cmap 0 tresp.data
  let tasksOutput := joinSep (str "\n\n") blocks
  let totalCount := match tresp.totalCount with
    | some n => if n = 0 then tresp.data.length else n
    | none => tresp.data.length
  let header := str "Task Inbox (" ++ natStr tresp.data.length ++
    (if totalCount > tresp.data.length then str " of " ++ natStr totalCount else []) ++
    str " tasks)\n\n"
  let actions := actionItemsFrom people cmap 0 tresp.data
  let actionsSection :=
    if actions.isEmpty then []
    else str "\n\nSuggested Actions:\n" ++ joinSep (str "\n") actions
  header ++ tasksOutput ++ actionsSection

/-- The environment configuration consumed by the tool. -/
structure Config where
  userId : Option Str
  orgId : Str
deriving DecidableEq

/-- Query of the task-listing request (src/tools/pages.ts lines 173-179). -/
structure TaskQuery where
  assigneeId : Str
  status : Str
  limit : Nat
  sort : Str
deriving DecidableEq

/-- Query of one per-task comment fetch (src/tools/pages.ts line 207). -/
structure CommentQuery where
  taskIds : List Str
  limit : Nat
deriving DecidableEq

/-- The Resource Client: each request either succeeds with a response or
fails with an error description. -/
structure ResourceClient where
  listTasks : TaskQuery → Except Str TasksResponse
  listComments : CommentQuery → Except Str CommentsResponse

/-- `McpError` as thrown by the catch block of src/tools/pages.ts
lines 312-324. -/
inductive McpFail where
  | invalidParams (msg : Str)
  | internalError (msg : Str)
deriving DecidableEq

/-- `Promise.all` over already-settled outcomes: the fan-out/fan-in join
fails as a whole when any member fails (rejection order modelled as index
order), and yields all values otherwise. -/
def sequenceExcept {α : Type} : List (Except Str α) → Except Str (List α)
  | [] => .ok []
  | .error e :: _ => .error e
  | .ok a :: rest =>
    match sequenceExcept rest with
    | .error e => .error e
    | .ok vals => .ok (a :: vals)

/-- First failure among a list of outcomes, if any. -/
def firstErrorOf {α : Type} : List (Except Str α) → Option Str
  | [] => none
  | .error e :: _ => some e
  | .ok _ :: rest => firstErrorOf rest

/-- The task-listing query issued by the tool (src/tools/pages.ts
lines 173-179). -/
def inboxTaskQuery (uid : Str) (limit : Nat) : TaskQuery :=
  ⟨uid, str "open", limit, str "-last_activity_at"⟩

/-- `taskInboxTool` of src/tools/pages.ts lines 153-325: configuration
guard, task listing, empty-result shortcut, parallel per-task comment
fetches, and the rendered text; any request failure is caught and rethrown
as an internal `McpError` carrying the failure's description. -/
def taskInboxTool (client : ResourceClient) (cfg : Config) (now : Int)
    (loc : Int → Str) (limit : Nat) : Except McpFail Str :=
  match cfg.userId with
  | none => .ok (str "User ID not configured. Please set PRODUCTIVE_USER_ID in your environment variables to use this feature.")
  | some uid =>
    match client.listTasks (inboxTaskQuery uid limit) with
    | .error e => .error (.internalError e)
    | .ok tresp =>
      if tresp.data.isEmpty then .ok (str "No tasks in your inbox.")
      else
        match sequenceExcept
            ((tresp.data.map (fun t => t.id)).map
              (fun tid => client.listComments ⟨[tid], 1⟩)) with
        | .error e => .error (.internalError e)
        | .ok cresps => .ok (renderInbox cfg.orgId now loc tresp cresps)

/-- The action categories named by the specification's classifier. -/
inductive ActionClass where
  | closing
  | review
  | help
  | publish
  | question
  | mentioned
  | critical
  | bug
deriving DecidableEq

/-- Modelled from the spec: the first-match classification procedure exactly
as the claim words it — comment gate on `?` or `@`, then the ordered keyword
branches; without a comment, the critical check then the bug check. -/
def specClassify (title : Str) (commentBody : Option Str) : Option ActionClass :=
  match commentBody with
  | some b =>
    let lb := lower (stripHtml b)
    if containsStr lb (str "?") || containsStr lb (str "@") then
      some (if containsStr lb (str "close") || containsStr lb (str "chiudi") then ActionClass.closing
        else if containsStr lb (str "review") || containsStr lb (str "controlla") then ActionClass.review
        else if containsStr lb (str "help") || containsStr lb (str "aiut") then ActionClass.help
        else if containsStr lb (str "publish") || containsStr lb (str "pubblica") then ActionClass.publish
        else if containsStr lb (str "?") then ActionClass.question
        else ActionClass.mentioned)
    else none
  | none =>
    if containsStr (lower title) (str "critical") || containsStr title (str "⚠️") then
      some ActionClass.critical
    else if containsStr (lower title) (str "bug") then some ActionClass.bug
    else none

/-- The source's message string for each category. -/
def renderAction (taskNum : Nat) (author : Str) : ActionClass → Str
  | .closing => str "#" ++ natStr taskNum ++ str " - " ++ author ++
      str " is asking about closing this task. Review and respond."
  | .review => str "#" ++ natStr taskNum ++ str " - Review requested by " ++ author ++ str "."
  | .help => str "#" ++ natStr taskNum ++ str " - " ++ author ++ str " is asking for help."
  | .publish => str "#" ++ natStr taskNum ++ str " - " ++ author ++
      str " needs you to publish something."
  | .question => str "#" ++ natStr taskNum ++ str " - " ++ author ++ str " asked a question. Respond."
  | .mentioned => str "#" ++ natStr taskNum ++ str " - You were mentioned. Check and respond."
  | .critical => str "#" ++ natStr taskNum ++ str " - CRITICAL bug needs immediate attention."
  | .bug => str "#" ++ natStr taskNum ++ str " - Bug to investigate."

/-- The author name the action engine resolves for a task/comment pair. -/
def authorForSuggestion (people : List (Str × Str)) : Option Comment → Str
  | some c => authorNameOr people (str "Someone") c
  | none => str "Someone"

/-- Modelled from the spec: the relative-age table exactly as the claim
words it, over the whole-day difference `n` (the claim covers `n ≥ 0`; the
final arm is never reached there). -/
def specRelLabel (loc : Int → Str) (dateMs n : Int) : Str :=
  if n = 0 then str "today"
  else if n = 1 then str "1 day ago"
  else if 2 ≤ n ∧ n ≤ 6 then intStr n ++ str " days ago"
  else if 7 ≤ n ∧ n ≤ 13 then str "1 week ago"
  else if 14 ≤ n ∧ n ≤ 29 then intStr (n.fdiv 7) ++ str " weeks ago"
  else if 30 ≤ n ∧ n ≤ 59 then str "1 month ago"
  else if 60 ≤ n then loc dateMs
  else []

/-! ## Helper lemmas -/

/-- A list starts with itself followed by anything. -/
theorem startsWith_append (a b : Str) : startsWith a (a ++ b) = true := by
  induction a with
  | nil => rfl
  | cons c cs ih => simp [startsWith, ih]

/-- Extending a list on the right preserves its start. -/
theorem startsWith_append_left {a l : Str} (b : Str) (h : startsWith a l = true) :
    startsWith a (l ++ b) = true := by
  induction a generalizing l with
  | nil => rfl
  | cons p ps ih =>
    cases l with
    | nil => simp [startsWith] at h
    | cons c cs =>
      simp only [startsWith, Bool.and_eq_true] at h
      simp only [List.cons_append, startsWith, Bool.and_eq_true]
      exact ⟨h.1, ih h.2⟩

/-- Scanning loop of a never-matching replacement is the identity. -/
theorem replaceAllGo_id {pat : Str} (rep : Str) :
    ∀ (l : Str) (fuel : Nat), containsStr l pat = false →
      replaceAllGo pat rep fuel l = l := by
  intro l
  induction l with
  | nil => intro fuel _; cases fuel <;> rfl
  | cons c rest ih =>
    intro fuel h
    unfold containsStr at h
    rcases Bool.or_eq_false_iff.mp h with ⟨hs, hc⟩
    cases fuel with
    | zero => rfl
    | succ f =>
      simp only [replaceAllGo]
      rw [if_neg (by simp [hs]), ih f hc]

/-- Global replacement of a pattern that does not occur is the identity. -/
theorem replaceAll_id {pat rep l : Str} (h : containsStr l pat = false) :
    replaceAll pat rep l = l :=
  replaceAllGo_id rep l l.length h

/-- Tag-removal loop on text without `<` is the identity. -/
theorem removeTagsGo_id :
    ∀ (l : Str) (fuel : Nat), containsStr l (str "<") = false →
      removeTagsGo fuel l = l := by
  intro l
  induction l with
  | nil => intro fuel _; cases fuel <;> rfl
  | cons c rest ih =>
    intro fuel h
    unfold containsStr at h
    rcases Bool.or_eq_false_iff.mp h with ⟨hs, hc⟩
    have hcne : ¬ c = '<' := by
      intro he
      subst he
      simp [startsWith, str] at hs
    cases fuel with
    | zero => rfl
    | succ f =>
      simp only [removeTagsGo]
      rw [if_neg (by simp [hcne]), ih f hc]

/-- Tag removal on text without `<` is the identity. -/
theorem removeTags_id {l : Str} (h : containsStr l (str "<") = false) :
    removeTags l = l :=
  removeTagsGo_id l l.length h

/-! ## C5: truncate -/

/-- C5: for every string `s` and every `maxLength > 3`, `truncate` returns
`s` unchanged when `s` fits, and otherwise returns the first
`maxLength - 3` characters followed by `"..."`, so the result has length
exactly `maxLength` and ends in `"..."`. -/
theorem c5_truncate (s : Str) (m : Nat) (hm : 3 < m) :
    (s.length ≤ m → truncate s m = s) ∧
    (m < s.length →
      truncate s m = s.take (m - 3) ++ str "..." ∧
      (truncate s m).length = m ∧
      ∃ p, truncate s m = p ++ str "...") := by
  constructor
  · intro hle
    simp [truncate, hle]
  · intro hg
    have hnle : ¬ s.length ≤ m := by omega
    have heq : truncate s m = s.take (m - 3) ++ str "..." := by
      simp [truncate, hnle]
    refine ⟨heq, ?_, s.take (m - 3), heq⟩
    have h3 : (str "...").length = 3 := by decide
    rw [heq]
    simp only [List.length_append, List.length_take, h3]
    omega

/-- Witness for C5 at a concrete over-long input. -/
theorem c5_truncate_witness :
    truncate (str "hello world") 8 = (str "hello world").take 5 ++ str "..." ∧
    (truncate (str "hello world") 8).length = 8 ∧
    ∃ p, truncate (str "hello world") 8 = p ++ str "..." :=
  (c5_truncate (str "hello world") 8 (by decide)).2 (by decide)

/-! ## C4: formatRelativeTime day table -/

/-- C4: for a non-negative whole-day difference, `formatRelativeTime`
realises exactly the claimed first-match table `specRelLabel` (0 → today,
1 → 1 day ago, 2..6 → n days ago, 7..13 → 1 week ago, 14..29 →
floor(n/7) weeks ago, 30..59 → 1 month ago, ≥ 60 → the locale date). -/
theorem c4_relative_time (loc : Int → Str) (nowMs dateMs : Int)
    (h : 0 ≤ nowMs - dateMs) :
    formatRelativeTime loc nowMs dateMs =
      specRelLabel loc dateMs ((nowMs - dateMs).fdiv 86400000) := by
  have hn : 0 ≤ (nowMs - dateMs).fdiv 86400000 := Int.fdiv_nonneg h (by omega)
  unfold formatRelativeTime
  generalize (nowMs - dateMs).fdiv 86400000 = n at hn ⊢
  unfold relLabelCore specRelLabel
  split_ifs <;> first | rfl | omega

/-- Witness for C4: a whole-day difference of exactly 14 renders as
`2 weeks ago`. -/
theorem c4_relative_time_witness :
    formatRelativeTime (fun _ => str "DATE") (14 * 86400000) 0 = str "2 weeks ago" := by
  have h := c4_relative_time (fun _ => str "DATE") (14 * 86400000) 0 (by decide)
  rw [h]
  decide

/-! ## C10: future timestamps -/

/-- C10: for every timestamp strictly later than now, the (negative)
floored day difference falls through the `0` and `1` cases into the
`less than 7 days` branch, so the result is `"<d> days ago"` with `d < 0` —
never `today`, a calendar date, or an error. -/
theorem c10_future_timestamps (loc : Int → Str) (nowMs dateMs : Int)
    (h : nowMs < dateMs) :
    (nowMs - dateMs).fdiv 86400000 < 0 ∧
    formatRelativeTime loc nowMs dateMs =
      intStr ((nowMs - dateMs).fdiv 86400000) ++ str " days ago" := by
  have hneg : (nowMs - dateMs).fdiv 86400000 < 0 :=
    Int.fdiv_neg' (by omega) (by omega)
  refine ⟨hneg, ?_⟩
  unfold formatRelativeTime relLabelCore
  rw [if_neg (by omega), if_neg (by omega), if_pos (by omega)]

/-- Witness for C10: one second in the future renders as `-1 days ago`. -/
theorem c10_future_timestamps_witness :
    formatRelativeTime (fun _ => str "DATE") 0 1000 = str "-1 days ago" := by
  have h := (c10_future_timestamps (fun _ => str "DATE") 0 1000 (by decide)).2
  rw [h]
  decide

/-! ## C1: action suggestion engine -/

/-- C1: the action engine emits at most one suggestion per (task, comment)
pair, chosen exactly by the claimed first-match procedure: `suggestionFor`
coincides with the spec-worded classifier followed by the per-category
message rendering.  The conjuncts also record the claim's particular
consequences within the procedure: a gated body without `close`/`chiudi`
containing both `review` and `help` classifies as review-requested, a body
lacking both `?` and `@` yields no suggestion regardless of keywords, and
the critical check precedes the bug check. -/
theorem c1_action_engine :
    (∀ (people : List (Str × Str)) (taskNum : Nat) (title : Str) (latest : Option Comment),
      suggestionFor people taskNum title latest =
        (specClassify title (latest.map (fun c => c.body))).map
          (renderAction taskNum (authorForSuggestion people latest))) ∧
    (∀ (people : List (Str × Str)) (taskNum : Nat) (title : Str) (c : Comment),
      containsStr (lower (stripHtml c.body)) (str "?") = false →
      containsStr (lower (stripHtml c.body)) (str "@") = false →
      suggestionFor people taskNum title (some c) = none) ∧
    (∀ (people : List (Str × Str)) (taskNum : Nat) (title : Str) (c : Comment),
      (containsStr (lower (stripHtml c.body)) (str "?") ||
        containsStr (lower (stripHtml c.body)) (str "@")) = true →
      containsStr (lower (stripHtml c.body)) (str "close") = false →
      containsStr (lower (stripHtml c.body)) (str "chiudi") = false →
      containsStr (lower (stripHtml c.body)) (str "review") = true →
      containsStr (lower (stripHtml c.body)) (str "help") = true →
      suggestionFor people taskNum title (some c) =
        some (renderAction taskNum (authorNameOr people (str "Someone") c) ActionClass.review)) ∧
    (∀ (people : List (Str × Str)) (taskNum : Nat) (title : Str),
      containsStr (lower title) (str "critical") = true →
      containsStr (lower title) (str "bug") = true →
      suggestionFor people taskNum title none =
        some (renderAction taskNum (str "Someone") ActionClass.critical)) := by
  refine ⟨?_, ?_, ?_, ?_⟩
  · intro people taskNum title latest
    cases latest with
    | none =>
      simp only [suggestionFor, specClassify, Option.map, authorForSuggestion]
      split_ifs <;> rfl
    | some c =>
      simp only [suggestionFor, specClassify, Option.map, authorForSuggestion]
      split_ifs <;> rfl
  · intro people taskNum title c h1 h2
    simp only [suggestionFor]
    rw [if_neg (by simp [h1, h2])]
  · intro people taskNum title c hg hc1 hc2 hr _
    simp only [suggestionFor]
    rw [if_pos (by simp [hg]), if_neg (by simp [hc1, hc2]), if_pos (by simp [hr])]
    rfl
  · intro people taskNum title hcrit _
    simp only [suggestionFor]
    rw [if_pos (by simp [hcrit])]
    rfl

/-- Witness for C1 at the spec's own examples. -/
theorem c1_action_engine_witness :
    suggestionFor [] 1 (str "t") (some ⟨str "hi @bob", none⟩) =
      (specClassify (str "t") ((some (⟨str "hi @bob", none⟩ : Comment)).map
        (fun c => c.body))).map
        (renderAction 1 (authorForSuggestion [] (some ⟨str "hi @bob", none⟩))) ∧
    suggestionFor [] 2 (str "t") (some ⟨str "review help please", none⟩) = none ∧
    suggestionFor [] 3 (str "t") (some ⟨str "can you review this? please help @bob", none⟩) =
      some (renderAction 3
        (authorNameOr [] (str "Someone") ⟨str "can you review this? please help @bob", none⟩)
        ActionClass.review) ∧
    suggestionFor [] 4 (str "CRITICAL payment bug") none =
      some (renderAction 4 (str "Someone") ActionClass.critical) :=
  ⟨c1_action_engine.1 [] 1 (str "t") (some ⟨str "hi @bob", none⟩),
   c1_action_engine.2.1 [] 2 (str "t") ⟨str "review help please", none⟩
     (by decide) (by decide),
   c1_action_engine.2.2.1 [] 3 (str "t")
     ⟨str "can you review this? please help @bob", none⟩
     (by decide) (by decide) (by decide) (by decide) (by decide),
   c1_action_engine.2.2.2 [] 4 (str "CRITICAL payment bug") (by decide) (by decide)⟩

/-! ## C2: order preservation -/

/-- The block list has one block per task. -/
theorem taskBlocks_length (ctx : RenderCtx) (projects people : List (Str × Str))
    (cmap : List (Str × Comment)) :
    ∀ (tasks : List Task) (k : Nat),
      (taskBlocks ctx projects people cmap k tasks).length = tasks.length := by
  intro tasks
  induction tasks with
  | nil => intro k; rfl
  | cons t ts ih => intro k; simp [taskBlocks, ih]

/-- The block at position `i` renders the task at position `i` with ordinal
offset `k + i`. -/
theorem taskBlocks_getD (ctx : RenderCtx) (projects people : List (Str × Str))
    (cmap : List (Str × Comment)) :
    ∀ (tasks : List Task) (k i : Nat) (t0 : Task), i < tasks.length →
      (taskBlocks ctx projects people cmap k tasks).getD i [] =
        renderBlock ctx projects people cmap (k + i) (tasks.getD i t0) := by
  intro tasks
  induction tasks with
  | nil => intro k i t0 h; cases h
  | cons t ts ih =>
    intro k i t0 h
    cases i with
    | zero => rfl
    | succ j =>
      have hj : j < ts.length := by simpa using h
      have := ih (k + 1) j t0 hj
      simpa [taskBlocks, Nat.add_assoc, Nat.add_comm, Nat.add_left_comm] using this

/-- C2: the rendered per-task blocks appear in exactly the order of the task
list returned by the Resource Client — the block at 0-based position `i` is
the rendering of task `i` and carries the 1-based ordinal `i + 1`; no
re-sorting happens. -/
theorem c2_order_preserved (ctx : RenderCtx) (projects people : List (Str × Str))
    (cmap : List (Str × Comment)) (tasks : List Task) :
    (taskBlocks ctx projects people cmap 0 tasks).length = tasks.length ∧
    ∀ (i : Nat) (t0 : Task), i < tasks.length →
      (taskBlocks ctx projects people cmap 0 tasks).getD i [] =
        renderBlock ctx projects people cmap i (tasks.getD i t0) ∧
      startsWith (natStr (i + 1) ++ str ". ")
        ((taskBlocks ctx projects people cmap 0 tasks).getD i []) = true := by
  refine ⟨taskBlocks_length ctx projects people cmap tasks 0, ?_⟩
  intro i t0 h
  have hb := taskBlocks_getD ctx projects people cmap tasks 0 i t0 h
  simp only [Nat.zero_add] at hb
  refine ⟨hb, ?_⟩
  rw [hb]
  dsimp only [renderBlock]
  repeat
    first
    | exact startsWith_append _ _
    | apply startsWith_append_left

/-- Witness for C2 on a concrete two-task list at position 1. -/
theorem c2_order_preserved_witness :
    (taskBlocks ⟨str "org", 0, fun _ => str "D"⟩ [] [] [] 0
      [⟨str "7", str "A", none, none, 0, none⟩,
       ⟨str "8", str "B", none, none, 0, none⟩]).getD 1 [] =
      renderBlock ⟨str "org", 0, fun _ => str "D"⟩ [] [] [] 1
        ([⟨str "7", str "A", none, none, 0, none⟩,
          (⟨str "8", str "B", none, none, 0, none⟩ : Task)].getD 1
          ⟨str "0", str "Z", none, none, 0, none⟩) ∧
    startsWith (natStr 2 ++ str ". ")
      ((taskBlocks ⟨str "org", 0, fun _ => str "D"⟩ [] [] [] 0
        [⟨str "7", str "A", none, none, 0, none⟩,
         ⟨str "8", str "B", none, none, 0, none⟩]).getD 1 []) = true :=
  (c2_order_preserved ⟨str "org", 0, fun _ => str "D"⟩ [] [] []
    [⟨str "7", str "A", none, none, 0, none⟩,
     ⟨str "8", str "B", none, none, 0, none⟩]).2 1
    ⟨str "0", str "Z", none, none, 0, none⟩ (by decide)

/-! ## C3: content line branches (corrected: three-space indent) -/

/-- C3 counterexample: the no-content line is the literal `"   No content"`
with its three-space indent, not exactly `"No content"` as claimed. -/
theorem c3_counterexample :
    contentLineTool [] none [] ≠ str "No content" ∧
    contentLineTool [] none [] = str "   No content" := by
  exact ⟨by decide, by decide⟩

/-- C3 amended: exactly one of three mutually exclusive branches fires per
task and determines the content line, each after a uniform three-space
indent — comment (author, `": "`, body), else non-empty stripped
description after `"Description: "`, else the literal no-content marker;
this holds for both the MCP tool renderer and the CLI renderer (whose body
is additionally mention-collapsed and optionally truncated). -/
theorem c3_content_line (people : List (Str × Str)) (latest : Option Comment)
    (desc : Str) (showFull : Bool) :
    (∀ c, latest = some c →
      contentLineTool people latest desc =
        str "   " ++ authorNameOr people (str "Unknown") c ++ str ": " ++ stripHtml c.body ∧
      contentLineCli people showFull latest desc =
        str "   " ++ authorNameOr people (str "Unknown") c ++ str ": " ++
          (if showFull then cleanMentions (stripHtml c.body)
           else truncate (cleanMentions (stripHtml c.body)) MAX_CONTENT_LENGTH)) ∧
    (latest = none → desc ≠ [] →
      contentLineTool people latest desc = str "   Description: " ++ desc ∧
      contentLineCli people showFull latest desc =
        str "   Description: " ++
          (if showFull then cleanMentions desc
           else truncate (cleanMentions desc) MAX_CONTENT_LENGTH)) ∧
    (latest = none → desc = [] →
      contentLineTool people latest desc = str "   No content" ∧
      contentLineCli people showFull latest desc = str "   No content") := by
  refine ⟨?_, ?_, ?_⟩
  · intro c hc
    subst hc
    exact ⟨rfl, rfl⟩
  · intro hn hd
    subst hn
    have hne : desc.isEmpty = false := by
      cases desc with
      | nil => exact absurd rfl hd
      | cons a as => rfl
    constructor
    · simp only [contentLineTool, hne]
      rfl
    · simp only [contentLineCli, hne]
      rfl
  · intro hn hd
    subst hn
    subst hd
    exact ⟨rfl, rfl⟩

/-- Witness for C3 on the comment branch and the no-content branch. -/
theorem c3_content_line_witness :
    contentLineTool [] (some ⟨str "hi <b>there</b>", none⟩) (str "d") =
      str "   " ++ authorNameOr [] (str "Unknown") ⟨str "hi <b>there</b>", none⟩ ++
        str ": " ++ stripHtml (str "hi <b>there</b>") ∧
    contentLineTool [] none [] = str "   No content" :=
  ⟨((c3_content_line [] (some ⟨str "hi <b>there</b>", none⟩) (str "d") true).1
      ⟨str "hi <b>there</b>", none⟩ rfl).1,
   ((c3_content_line [] none [] true).2.2 rfl rfl).1⟩

/-! ## C6: stripHtml idempotence (corrected) -/

/-- C6 counterexample: entity decoding cascades, so `stripHtml` is not
idempotent on all inputs: `&amp;amp;` strips to `&amp;`, which strips
again to `&`. -/
theorem c6_counterexample :
    stripHtml (stripHtml (str "&amp;amp;")) ≠ stripHtml (str "&amp;amp;") ∧
    stripHtml (str "&amp;amp;") = str "&amp;" ∧
    stripHtml (stripHtml (str "&amp;amp;")) = str "&" := by
  exact ⟨by decide, by decide, by decide⟩

/-- C6 amended: `stripHtml` is the identity on genuinely plain text — text
with no `<` character, none of the five entity escapes, and no leading or
trailing whitespace.  (The image of `stripHtml` is not closed under these
conditions, so idempotence fails in general.) -/
theorem c6_stripHtml_plain (t : Str)
    (h1 : containsStr t (str "<") = false)
    (h2 : containsStr t (str "&nbsp;") = false)
    (h3 : containsStr t (str "&amp;") = false)
    (h4 : containsStr t (str "&lt;") = false)
    (h5 : containsStr t (str "&gt;") = false)
    (h6 : containsStr t (str "&quot;") = false)
    (h7 : jsTrim t = t) :
    stripHtml t = t := by
  unfold stripHtml
  rw [removeTags_id h1, replaceAll_id h2, replaceAll_id h3, replaceAll_id h4,
    replaceAll_id h5, replaceAll_id h6, h7]

/-- Witness for C6 on a concrete plain string. -/
theorem c6_stripHtml_plain_witness :
    stripHtml (str "plain text, no markup") = str "plain text, no markup" :=
  c6_stripHtml_plain (str "plain text, no markup") (by decide) (by decide)
    (by decide) (by decide) (by decide) (by decide) (by decide)

/-! ## C7: mention collapsing in the rendered content line (corrected) -/

/-- C7 counterexample: the MCP tool renderer does not mention-collapse — a
structured mention payload survives verbatim in its content line, although
`cleanMentions` would have collapsed it. -/
theorem c7_counterexample :
    containsStr
      (contentLineTool [] (some ⟨str "@[\x7b\"label\":\"Ann\"\x7d] hi", none⟩) [])
      (str "@[\x7b\"label\":\"Ann\"\x7d]") = true ∧
    cleanMentions (stripHtml (str "@[\x7b\"label\":\"Ann\"\x7d] hi")) = str "@Ann hi" := by
  exact ⟨by decide, by decide⟩

/-- C7 amended: only the CLI renderer mention-collapses (and optionally
truncates) the body; the MCP tool renderer applies markup stripping alone,
leaving mention payloads verbatim. -/
theorem c7_mention_collapse :
    (∀ (people : List (Str × Str)) (showFull : Bool) (c : Comment) (desc : Str),
      contentLineCli people showFull (some c) desc =
        str "   " ++ authorNameOr people (str "Unknown") c ++ str ": " ++
          (if showFull then cleanMentions (stripHtml c.body)
           else truncate (cleanMentions (stripHtml c.body)) MAX_CONTENT_LENGTH)) ∧
    (∀ (people : List (Str × Str)) (c : Comment) (desc : Str),
      contentLineTool people (some c) desc =
        str "   " ++ authorNameOr people (str "Unknown") c ++ str ": " ++ stripHtml c.body) ∧
    contentLineCli [] true (some ⟨str "@[\x7b\"label\":\"Ann\"\x7d] hi", none⟩) [] =
      str "   Unknown: @Ann hi" ∧
    contentLineTool [] (some ⟨str "@[\x7b\"label\":\"Ann\"\x7d] hi", none⟩) [] =
      str "   Unknown: @[\x7b\"label\":\"Ann\"\x7d] hi" := by
  refine ⟨fun people showFull c desc => rfl, fun people c desc => rfl, by decide, by decide⟩

/-! ## C8: failure propagation -/

/-- The fan-in join fails with the first failure among its members. -/
theorem sequenceExcept_error {α : Type} :
    ∀ (l : List (Except Str α)) (e : Str), firstErrorOf l = some e →
      sequenceExcept l = .error e := by
  intro l
  induction l with
  | nil => intro e h; cases h
  | cons x rest ih =>
    intro e h
    cases x with
    | error e2 =>
      cases h
      rfl
    | ok a =>
      simp only [firstErrorOf] at h
      simp only [sequenceExcept, ih e h]

/-- C8: when a user id is configured, a failing task-listing request makes
the whole inbox-view operation fail with an internal error carrying that
failure's description, and so does a failure of any of the per-task comment
fetches (the first failing fetch in fan-out order supplies the message) —
no partial result is produced and no request is reissued. -/
theorem c8_error_propagation (client : ResourceClient) (cfg : Config)
    (now : Int) (loc : Int → Str) (limit : Nat) (uid : Str)
    (huid : cfg.userId = some uid) :
    (∀ e, client.listTasks (inboxTaskQuery uid limit) = .error e →
      taskInboxTool client cfg now loc limit = .error (.internalError e)) ∧
    (∀ tresp e, client.listTasks (inboxTaskQuery uid limit) = .ok tresp →
      tresp.data ≠ [] →
      firstErrorOf ((tresp.data.map (fun t => t.id)).map
        (fun tid => client.listComments ⟨[tid], 1⟩)) = some e →
      taskInboxTool client cfg now loc limit = .error (.internalError e)) := by
  constructor
  · intro e he
    unfold taskInboxTool
    rw [huid]
    dsimp only
    rw [he]
  · intro tresp e ht hne hfe
    have hemp : tresp.data.isEmpty = false := by
      cases hdata : tresp.data with
      | nil => exact absurd hdata hne
      | cons a as => rfl
    unfold taskInboxTool
    rw [huid]
    dsimp only
    rw [ht]
    dsimp only
    rw [if_neg (by simp [hemp]), sequenceExcept_error _ e hfe]

/-- Witness for C8: a failing task listing, and separately a failing
comment fetch, each abort a concrete inbox view with the underlying
message. -/
theorem c8_error_propagation_witness :
    taskInboxTool
      ⟨fun _ => .error (str "boom"), fun _ => .ok ⟨[], []⟩⟩
      ⟨some (str "u1"), str "org"⟩ 0 (fun _ => str "D") 10 =
      .error (.internalError (str "boom")) ∧
    taskInboxTool
      ⟨fun _ => .ok ⟨[⟨str "1", str "T", none, none, 0, none⟩], [], none⟩,
       fun _ => .error (str "net")⟩
      ⟨some (str "u1"), str "org"⟩ 0 (fun _ => str "D") 10 =
      .error (.internalError (str "net")) :=
  ⟨(c8_error_propagation
      ⟨fun _ => .error (str "boom"), fun _ => .ok ⟨[], []⟩⟩
      ⟨some (str "u1"), str "org"⟩ 0 (fun _ => str "D") 10 (str "u1") rfl).1
      (str "boom") rfl,
   (c8_error_propagation
      ⟨fun _ => .ok ⟨[⟨str "1", str "T", none, none, 0, none⟩], [], none⟩,
       fun _ => .error (str "net")⟩
      ⟨some (str "u1"), str "org"⟩ 0 (fun _ => str "D") 10 (str "u1") rfl).2
      ⟨[⟨str "1", str "T", none, none, 0, none⟩], [], none⟩ (str "net")
      rfl (by decide) rfl⟩

/-! ## C9: cleanMentions on mention-free text -/

/-- The mention-replacement loop is the identity when no position of the
input matches the mention regex. -/
theorem cleanMentionsGo_id :
    ∀ (l : Str) (fuel : Nat), hasMention l = false →
      cleanMentionsGo fuel l = l := by
  intro l
  induction l with
  | nil => intro fuel _; cases fuel <;> rfl
  | cons c rest ih =>
    intro fuel h
    unfold hasMention at h
    rcases Bool.or_eq_false_iff.mp h with ⟨ha, hc⟩
    have hm : tryMention (c :: rest) = none := by
      cases hm2 : tryMention (c :: rest) with
      | none => rfl
      | some v =>
        rw [hm2] at ha
        simp at ha
    cases fuel with
    | zero => rfl
    | succ f =>
      simp only [cleanMentionsGo, hm]
      rw [ih f hc]

/-- C9: `cleanMentions` returns its input unchanged whenever no substring
matches the mention pattern; it is a total function (it never throws), it
handles one and many mentions in a single string, and unmatched payload
shapes are left verbatim. -/
theorem c9_cleanMentions :
    (∀ l : Str, hasMention l = false → cleanMentions l = l) ∧
    cleanMentions (str "a @[\x7b\"label\":\"B\"\x7d] c") = str "a @B c" ∧
    cleanMentions
      (str "a @[\x7b\"label\":\"B\"\x7d] c @[\x7b\"x\":1,\"label\":\"D\"\x7d] e") =
      str "a @B c @D e" ∧
    cleanMentions (str "@[\x7b\"id\":\"1\"\x7d] no label here") =
      str "@[\x7b\"id\":\"1\"\x7d] no label here" := by
  refine ⟨fun l h => cleanMentionsGo_id l l.length h, by decide, by decide, by decide⟩

/-- Witness for C9 on a concrete mention-free string (which still contains
a bare `@`). -/
theorem c9_cleanMentions_witness :
    cleanMentions (str "hello @world, plain text") = str "hello @world, plain text" :=
  c9_cleanMentions.1 (str "hello @world, plain text") (by decide)

end Productive
